import Mathlib

/-!
Verification development for the yf flow-shipping pipeline.

This file gives a shallow embedding of the two source files that carry the
program's interesting logic:

* the per-line body of `processStdin` and the helper `parseCounts`
  (cmd main package), and
* the whole `internal/statusreport` reporter (`NewReporter`, `Reporter.Add`,
  `Reporter.Run`, `reportOnce`, `appendToFile`, `rotateIfNeeded`).

Go strings are modelled as Lean `String`s; the Go standard-library helpers the
code relies on (`strings.Split` with a one-character separator,
`strings.TrimSpace`, `strings.Contains`, `strconv.ParseInt`) are modelled
character-by-character below.  Machine `int`/`int64` values are modelled as
`Int`, with the int64 boundary saturation that `strconv.ParseInt` performs on
range errors made explicit, and with the two's-complement wraparound of
`atomic.Int64` addition made explicit where counters are incremented.
Wall-clock instants are modelled as rational numbers of seconds
(`ℚ`), which is faithful for every comparison and division the reporter
performs.  Fallible I/O is modelled with `Except`/explicit failure flags, and a
Go runtime panic is modelled as `Option.none`.
-/

namespace Yf

/-- Go `unicode.IsSpace`: the Unicode White_Space property (the exact set of
code points Go's tables contain). -/
def goIsSpace (c : Char) : Bool :=
  decide ((9 ≤ c.toNat ∧ c.toNat ≤ 13) ∨ c.toNat = 32 ∨ c.toNat = 133 ∨
    c.toNat = 160 ∨ c.toNat = 0x1680 ∨ (0x2000 ≤ c.toNat ∧ c.toNat ≤ 0x200A) ∨
    c.toNat = 0x2028 ∨ c.toNat = 0x2029 ∨ c.toNat = 0x202F ∨
    c.toNat = 0x205F ∨ c.toNat = 0x3000)

/-- Go `strings.TrimSpace`: drop leading and trailing White_Space characters. -/
def goTrimSpace (s : String) : String :=
  String.mk (((s.data.dropWhile goIsSpace).reverse.dropWhile goIsSpace).reverse)

/-- Splitting a character list at every occurrence of `sep`. -/
def splitCharsOn (sep : Char) : List Char → List (List Char)
  | [] => [[]]
  | c :: cs =>
    if c = sep then [] :: splitCharsOn sep cs
    else
      match splitCharsOn sep cs with
      | [] => [[c]]
      | h :: t => (c :: h) :: t

/-- Go `strings.Split s sep` for a one-character separator `sep` (the only way
the source uses it, always with `"|"`).  `goSplit "" sep = [""]`, as in Go. -/
def goSplit (s : String) (sep : Char) : List String :=
  (splitCharsOn sep s.data).map String.mk

/-- Go `strings.Contains s sub`: `sub` occurs as a contiguous substring. -/
def goContains (s sub : String) : Bool :=
  (List.range (s.data.length + 1)).any fun i => sub.data.isPrefixOf (s.data.drop i)

/-- The outcome of Go's `strconv.ParseUint(s, 10, 64)` digit scan: a fully
scanned value, an early syntax error, or an early range error. -/
inductive ParseUintRes where
  | ok (n : Nat) : ParseUintRes
  | syntaxErr : ParseUintRes
  | rangeErr : ParseUintRes
deriving DecidableEq

/-- The left-to-right scan of Go `strconv.ParseUint(s, 10, 64)`.  Each
character is first checked for being a base-10 digit (anything else returns
`0, ErrSyntax` at once); then, before the digit is folded in, overflow past
`MaxUint64` returns `MaxUint64, ErrRange` at once — without scanning the
remaining characters.  Go performs the overflow test as a pre-multiply
cutoff check plus a post-add wrap check; together these trigger exactly when
the exact value `n * 10 + d` exceeds `MaxUint64 = 2^64 - 1`. -/
def parseUint10 : List Char → Nat → ParseUintRes
  | [], n => .ok n
  | c :: cs, n =>
    if c.isDigit = false then .syntaxErr
    else
      let d := c.toNat - 48
      if 18446744073709551615 < n * 10 + d then .rangeErr
      else parseUint10 cs (n * 10 + d)

/-- Go `strconv.ParseInt(s, 10, 64)` with the returned error ignored, exactly
as both call sites in `parseCounts` do.  `ParseInt` strips one optional sign
and hands the rest to `ParseUint(·, 10, 64)`:

* a syntax error anywhere before an overflow yields `0, ErrSyntax`;
* once the digit prefix overflows `uint64`, `ParseUint` returns
  `MaxUint64, ErrRange` immediately — even if non-digit garbage follows —
  and `ParseInt` turns that into the saturated int64 boundary for the sign
  (`MaxInt64`, or `MinInt64` after a minus sign);
* a fully scanned value is clamped to `MaxInt64`/`MinInt64` when it lies
  outside the int64 range (`ErrRange`), and returned exactly otherwise. -/
def goParseInt64 (s : String) : Int :=
  match s.data with
  | [] => 0
  | c :: rest =>
    let signDigits : Bool × List Char :=
      if c = '-' then (true, rest)
      else if c = '+' then (false, rest)
      else (false, c :: rest)
    if signDigits.2 = [] then 0
    else
      match parseUint10 signDigits.2 0 with
      | .syntaxErr => 0
      | .rangeErr =>
        if signDigits.1 then -9223372036854775808 else 9223372036854775807
      | .ok un =>
        if signDigits.1 then
          if 9223372036854775808 < un then -9223372036854775808 else -(un : Int)
        else
          if 9223372036854775808 ≤ un then 9223372036854775807 else (un : Int)

/-- `parseCounts` from the main package:

```go
func parseCounts(line string, pktIdx, byteIdx int) (int64, int64) {
    fields := strings.Split(line, "|")
    if pktIdx >= len(fields) || byteIdx >= len(fields) {
        return 0, 0
    }
    pkts, _ := strconv.ParseInt(strings.TrimSpace(fields[pktIdx]), 10, 64)
    bytes, _ := strconv.ParseInt(strings.TrimSpace(fields[byteIdx]), 10, 64)
    return pkts, bytes
}
```

The guard only checks the upper bound, so a negative index that survives it
reaches `fields[pktIdx]` and panics at run time ("index out of range"); the
panic is modelled as `none`.  A normal return `(p, b)` is `some (p, b)`. -/
def parseCounts (line : String) (pktIdx byteIdx : Int) : Option (Int × Int) :=
  let fields := goSplit line '|'
  if (fields.length : Int) ≤ pktIdx ∨ (fields.length : Int) ≤ byteIdx then
    some (0, 0)
  else if pktIdx < 0 ∨ byteIdx < 0 then
    none
  else
    some (goParseInt64 (goTrimSpace (fields.getD pktIdx.toNat "")),
          goParseInt64 (goTrimSpace (fields.getD byteIdx.toNat "")))

/-! ## The status reporter (`internal/statusreport/reporter.go`) -/

/-- `config.StatusReportConfig`.  The `config` package is not part of the
sources at hand; the fields and their types are exactly those `reporter.go`
and `main.go` read (`Enabled`, `URL`, `IntervalSec`, `UUID`, `FilePath`,
`FileMaxMB`), matching the configuration block the spec lists. -/
structure StatusReportConfig where
  Enabled : Bool
  URL : String
  IntervalSec : Nat
  UUID : String
  FilePath : String
  FileMaxMB : Int
deriving DecidableEq

/-- The `Reporter` struct.  `totalPkts`/`totalBytes` are the two atomic
counters; `lastPkts`/`lastBytes`/`lastTimestamp` are the mutex-guarded
snapshot; instants are rational seconds.  The `http.Client` field carries no
state the logic reads and is omitted. -/
structure Reporter where
  cfg : StatusReportConfig
  startTime : ℚ
  totalPkts : Int
  totalBytes : Int
  lastPkts : Int
  lastBytes : Int
  lastTimestamp : ℚ
  uuid : String
deriving DecidableEq

/-- `NewReporter`: returns `(nil, nil)` when disabled, otherwise a reporter
whose tag is the trimmed configured UUID, or the hostname when that trims to
empty (`os.Hostname`'s error is discarded).  The Go function never returns a
non-nil error; the second component models the returned `error` value. -/
def NewReporter (cfg : StatusReportConfig) (hostname : String) (now : ℚ) :
    Option Reporter × Option String :=
  if !cfg.Enabled then (none, none)
  else
    let u := goTrimSpace cfg.UUID
    let u := if u = "" then hostname else u
    (some { cfg := cfg, startTime := now, totalPkts := 0, totalBytes := 0,
            lastPkts := 0, lastBytes := 0, lastTimestamp := now, uuid := u },
     none)

/-- Two's-complement int64 wraparound: the value in
`[-2^63, 2^63)` congruent to `n` modulo `2^64`. -/
def wrapInt64 (n : Int) : Int :=
  (n + 9223372036854775808) % 18446744073709551616 - 9223372036854775808

/-- `Reporter.Add` with its nil-receiver guard: `Add` on a nil reporter
returns immediately, otherwise it atomically adds to both counters.
`atomic.Int64.Add` performs machine int64 addition, which wraps on
overflow. -/
def AddOpt (r : Option Reporter) (pkts bytes : Int) : Option Reporter :=
  match r with
  | none => none
  | some r =>
    some { r with totalPkts := wrapInt64 (r.totalPkts + pkts),
                  totalBytes := wrapInt64 (r.totalBytes + bytes) }

/-- The guard `reportOnce` applies to both elapsed-seconds divisors:
`if elapsed <= 0 { elapsed = 1 }`. -/
def goFloorPos (e : ℚ) : ℚ := if e ≤ 0 then 1 else e

/-- The windowed divisor of a tick at instant `now`:
`elapsedWindow := now.Sub(r.lastTimestamp).Seconds()` after the guard. -/
def elapsedWindowOf (r : Reporter) (now : ℚ) : ℚ :=
  goFloorPos (now - r.lastTimestamp)

/-- The cumulative divisor of a tick at instant `now`:
`runSecs := now.Sub(r.startTime).Seconds()` after the guard. -/
def runSecsOf (r : Reporter) (now : ℚ) : ℚ :=
  goFloorPos (now - r.startTime)

/-- Go's `int64(x)` conversion of a float: truncation toward zero. -/
def ratTrunc (q : ℚ) : Int := Int.tdiv q.num (q.den : Int)

/-- The snapshot `reportOnce` builds as a `map[string]interface{}`. -/
structure Payload where
  curRcvPkts : Int
  curRcvBytes : Int
  curPkts : Int
  curBytes : Int
  curAvgRcvPps : ℚ
  curAvgRcvBps : ℚ
  curAvgPps : ℚ
  curAvgBps : ℚ
  uuid : String
  runSecs : Int
  totalRcvPkts : Int
  totalRcvBytes : Int
  totalPkts : Int
  totalBytes : Int
  totalAvgRcvPps : ℚ
  totalAvgRcvBps : ℚ
  totalAvgPps : ℚ
  totalAvgBps : ℚ
deriving DecidableEq

/-- The payload of a tick at instant `now`: deltas against the retained
snapshot, windowed rates over `elapsedWindowOf`, cumulative rates over
`runSecsOf`, the reporter's tag, and truncated uptime. -/
def reportPayload (r : Reporter) (now : ℚ) : Payload :=
  let deltaPkts := r.totalPkts - r.lastPkts
  let deltaBytes := r.totalBytes - r.lastBytes
  let ew := elapsedWindowOf r now
  let rs := runSecsOf r now
  { curRcvPkts := deltaPkts, curRcvBytes := deltaBytes,
    curPkts := deltaPkts, curBytes := deltaBytes,
    curAvgRcvPps := (deltaPkts : ℚ) / ew, curAvgRcvBps := (deltaBytes : ℚ) / ew,
    curAvgPps := (deltaPkts : ℚ) / ew, curAvgBps := (deltaBytes : ℚ) / ew,
    uuid := r.uuid, runSecs := ratTrunc rs,
    totalRcvPkts := r.totalPkts, totalRcvBytes := r.totalBytes,
    totalPkts := r.totalPkts, totalBytes := r.totalBytes,
    totalAvgRcvPps := (r.totalPkts : ℚ) / rs,
    totalAvgRcvBps := (r.totalBytes : ℚ) / rs,
    totalAvgPps := (r.totalPkts : ℚ) / rs,
    totalAvgBps := (r.totalBytes : ℚ) / rs }

/-- The mutex-guarded snapshot update a tick performs before building the
payload: `lastPkts/lastBytes/lastTimestamp` take the loaded totals and `now`. -/
def tickUpdate (r : Reporter) (now : ℚ) : Reporter :=
  { r with lastPkts := r.totalPkts, lastBytes := r.totalBytes,
           lastTimestamp := now }

/-- A JSON scalar as it appears in the serialized snapshot. -/
inductive JVal where
  | jint (n : Int) : JVal
  | jnum (q : ℚ) : JVal
  | jstr (s : String) : JVal
deriving DecidableEq

/-- The serialized snapshot as the field-name/value mapping `json.Marshal`
receives, keys in the order of the Go map literal. -/
def payloadJson (p : Payload) : List (String × JVal) :=
  [("curRcvPkts", .jint p.curRcvPkts), ("curRcvBytes", .jint p.curRcvBytes),
   ("curPkts", .jint p.curPkts), ("curBytes", .jint p.curBytes),
   ("curAvgRcvPps", .jnum p.curAvgRcvPps), ("curAvgRcvBps", .jnum p.curAvgRcvBps),
   ("curAvgPps", .jnum p.curAvgPps), ("curAvgBps", .jnum p.curAvgBps),
   ("uuid", .jstr p.uuid), ("runSecs", .jint p.runSecs),
   ("totalRcvPkts", .jint p.totalRcvPkts), ("totalRcvBytes", .jint p.totalRcvBytes),
   ("totalPkts", .jint p.totalPkts), ("totalBytes", .jint p.totalBytes),
   ("totalAvgRcvPps", .jnum p.totalAvgRcvPps), ("totalAvgRcvBps", .jnum p.totalAvgRcvBps),
   ("totalAvgPps", .jnum p.totalAvgPps), ("totalAvgBps", .jnum p.totalAvgBps)]

/-! ### The local status file and its rotation -/

/-- The slice of the filesystem `appendToFile`/`rotateIfNeeded` touch for a
fixed configured path: the size of `<path>` (`none` when the file does not
exist) and, for each `i`, whether the backup `fmt.Sprintf("%s.%03d", path, i)`
exists (`%03d` renders distinct names for distinct `i ≥ 1`). -/
structure StatusFile where
  main : Option Nat
  backups : Nat → Bool

/-- The suffix-search loop of `rotateIfNeeded`:

```go
for i := 1; ; i++ {
    next := fmt.Sprintf("%s.%03d", path, i)
    if _, err := os.Stat(next); os.IsNotExist(err) {
        return os.Rename(path, next)
    }
    if i > 100000 {
        return fmt.Errorf(...)
    }
}
```

modelled with explicit fuel; `.ok i` is the suffix the rename targets and
`.error ()` the give-up error.  Any fuel of at least `100001` is beyond the
loop's own bound, so results stabilize (`rotateLoop_stable` below). -/
def rotateLoop (bex : Nat → Bool) : Nat → Nat → Except Unit Nat
  | _, 0 => .error ()
  | i, fuel + 1 =>
    if bex i = false then .ok i
    else if 100000 < i then .error ()
    else rotateLoop bex (i + 1) fuel

/-- `rotateIfNeeded`: nothing happens when the size cap is not positive, the
file does not exist, or its size is below the cap; otherwise the file is
renamed to the first free numeric backup suffix, or the error is surfaced when
the search gives up. -/
def rotateIfNeeded (maxMB : Int) (f : StatusFile) : Except Unit StatusFile :=
  let maxBytes := maxMB * 1024 * 1024
  if maxBytes ≤ 0 then .ok f
  else
    match f.main with
    | none => .ok f
    | some sz =>
      if (sz : Int) < maxBytes then .ok f
      else
        match rotateLoop f.backups 1 100001 with
        | .ok j => .ok { main := none,
                         backups := fun k => if k = j then true else f.backups k }
        | .error e => .error e

/-- `appendToFile` for a tick whose RFC3339 timestamp is `tsLen` bytes and
whose JSON body is `dataLen` bytes: an empty configured path is a no-op,
otherwise rotate if needed, then append `ts + " " + data + "\n"` with
`O_CREATE|O_APPEND` (a fresh file when `<path>` is absent).  `os.MkdirAll` and
the open/write I/O errors are modelled at the call site in `reportOnce`. -/
def appendToFile (path : String) (maxMB : Int) (f : StatusFile)
    (tsLen dataLen : Nat) : Except Unit StatusFile :=
  if path = "" then .ok f
  else
    match rotateIfNeeded maxMB f with
    | .error e => .error e
    | .ok g => .ok { g with main := some (g.main.getD 0 + (tsLen + 1 + dataLen + 1)) }

/-! ### One reporter tick (`reportOnce`) and the run loop -/

/-- The environment-supplied failure outcomes of one tick: whether
`json.Marshal` succeeds, whether the local append hits an OS I/O error
(`MkdirAll`/`OpenFile`/`WriteString`), whether `http.NewRequest` fails, and
whether `client.Do` fails. -/
structure TickFx where
  marshalOk : Bool
  ioErr : Bool
  newReqErr : Bool
  doErr : Bool
deriving DecidableEq

/-- What one tick did: the payload it serialized (if any), whether the local
append was attempted and succeeded, and whether the HTTP POST was attempted
and its `client.Do` call succeeded. -/
structure TickOutcome where
  payload : Option Payload
  appendAttempted : Bool
  appendOk : Bool
  postAttempted : Bool
  postOk : Bool
deriving DecidableEq

/-- `reportOnce` at instant `now`: load the totals, update the snapshot under
the mutex, build and marshal the payload, then best-effort append it locally
(only when `FilePath` is configured; a failure is logged and ignored) and
best-effort POST it (a failure is logged and ignored).  The Go function
returns no error in any branch; every failure path falls through to a plain
return, which this total function mirrors branch by branch. -/
def reportOnce (r : Reporter) (now : ℚ) (fx : TickFx) (fs : StatusFile)
    (tsLen : Nat) : Reporter × StatusFile × TickOutcome :=
  let r' := tickUpdate r now
  if !fx.marshalOk then
    (r', fs, { payload := none, appendAttempted := false, appendOk := false,
               postAttempted := false, postOk := false })
  else
    let p := reportPayload r now
    let dataLen := (payloadJson p).length
    let appended : Bool × StatusFile :=
      if r.cfg.FilePath = "" then (true, fs)
      else if fx.ioErr then (false, fs)
      else
        match appendToFile r.cfg.FilePath r.cfg.FileMaxMB fs tsLen dataLen with
        | .ok g => (true, g)
        | .error _ => (false, fs)
    if fx.newReqErr then
      (r', appended.2,
       { payload := some p, appendAttempted := !(r.cfg.FilePath = ""),
         appendOk := appended.1, postAttempted := false, postOk := false })
    else
      (r', appended.2,
       { payload := some p, appendAttempted := !(r.cfg.FilePath = ""),
         appendOk := appended.1, postAttempted := true, postOk := !fx.doErr })

/-- The ticker loop body of `Run` on an enabled reporter, iterated over the
tick instants that occur before the shared cancellation fires. -/
def runTicks (r : Reporter) (fs : StatusFile) :
    List (ℚ × TickFx × Nat) → Reporter × StatusFile × List TickOutcome
  | [] => (r, fs, [])
  | (now, fx, tsLen) :: rest =>
    let step := reportOnce r now fx fs tsLen
    let tail := runTicks step.1 step.2.1 rest
    (tail.1, tail.2.1, step.2.2 :: tail.2.2)

/-- `Reporter.Run` with its nil-receiver guard: on a nil reporter it returns
immediately — no ticker is created, no tick runs, the filesystem is untouched
— otherwise it runs the ticker loop until cancellation. -/
def RunOpt (r : Option Reporter) (ticks : List (ℚ × TickFx × Nat))
    (fs : StatusFile) : Option Reporter × StatusFile × List TickOutcome :=
  match r with
  | none => (none, fs, [])
  | some r0 =>
    let out := runTicks r0 fs ticks
    (some out.1, out.2.1, out.2.2)

/-! ## The stream orchestrator (`processStdin` in the main package) -/

/-- The `converter.TimeConverter` the orchestrator drives.  The converter
package is outside the sources at hand and the orchestrator only observes it
through `IsInitialized()` and `ConvertLine(line)` (which may fail, making the
orchestrator fall back to the raw line); it is therefore kept abstract as an
initialized-flag plus a transform that may fail. -/
structure ConvState where
  initialized : Bool
  transform : String → Option String

/-- The loop-local state of `processStdin`: the header latch, the converter
reference, the two bound column indices (Go `int`, starting at `-1`), the
reporter handle the counters live in, and the processed-line counter. -/
structure OrchState where
  headerProcessed : Bool
  conv : Option ConvState
  packetIdx : Int
  octetIdx : Int
  rep : Option Reporter
  lineCount : Nat

/-- The header-branch index scan:

```go
fields := strings.Split(line, "|")
for i, f := range fields {
    ft := strings.TrimSpace(f)
    switch ft {
    case "packetTotalCount": packetIdx = i
    case "octetTotalCount": octetIdx = i
    }
}
```

folded over the enumerated fields starting from the current index values. -/
def headerIndices (line : String) (p0 o0 : Int) : Int × Int :=
  ((goSplit line '|').enum).foldl
    (fun acc p =>
      let ft := goTrimSpace p.2
      if ft = "packetTotalCount" then ((p.1 : Int), acc.2)
      else if ft = "octetTotalCount" then (acc.1, (p.1 : Int))
      else acc)
    (p0, o0)

/-- The data-branch output line: the converted line when a converter exists,
is initialized, and `ConvertLine` succeeds; the raw line otherwise. -/
def outLineOf (s : OrchState) (line : String) : String :=
  match s.conv with
  | some c => if c.initialized then (c.transform line).getD line else line
  | none => line

/-- The packet/byte pair the data branch parses from the (possibly converted)
line it is about to write; `(0, 0)` outside the reachable cases. -/
def parsedOf (s : OrchState) (line : String) : Int × Int :=
  (parseCounts (outLineOf s line) s.packetIdx s.octetIdx).getD (0, 0)

/-- One iteration of the `processStdin` read loop on a scanned line, given the
abstract `converter.NewTimeConverter` behaviour `nc` (`none` models an
initialization error, after which the code sets `timeConverter = nil`).
Returns the successor state and the lines handed to `w.WriteLine` (the writer
lives outside these sources; its per-line errors are logged and skip only the
`lineCount` increment, which the model tracks for the success path).

Empty lines are skipped before anything else.  Before the header latch is
set, a line containing `"flowStartMilliseconds"` initializes the converter,
sets the latch, scans the column indices, and is written through unchanged;
any other pre-header line is written through unchanged.  After the latch, the
line is converted (with raw-line fallback), the counters are bumped via
`reporter.Add` when the reporter is non-nil, both indices are bound, and the
parsed pair is not `(0, 0)`-dominated (`pkts > 0 || bytes > 0`), and the
output line is written. -/
def processLine (nc : String → Option ConvState) (s : OrchState)
    (line : String) : OrchState × List String :=
  if line = "" then (s, [])
  else if s.headerProcessed then
    let out := outLineOf s line
    let s1 :=
      if s.rep.isSome && decide (0 ≤ s.packetIdx) && decide (0 ≤ s.octetIdx) then
        match parseCounts out s.packetIdx s.octetIdx with
        | some pb =>
          if 0 < pb.1 ∨ 0 < pb.2 then { s with rep := AddOpt s.rep pb.1 pb.2 }
          else s
        | none => s
      else s
    ({ s1 with lineCount := s1.lineCount + 1 }, [out])
  else
    if goContains line "flowStartMilliseconds" then
      let pc := headerIndices line s.packetIdx s.octetIdx
      ({ s with headerProcessed := true, conv := nc line,
                packetIdx := pc.1, octetIdx := pc.2 }, [line])
    else (s, [line])

/-- The read loop over a list of scanned lines, accumulating the lines handed
to the writer. -/
def runLines (nc : String → Option ConvState) (s : OrchState) :
    List String → OrchState × List String
  | [] => (s, [])
  | l :: ls =>
    let one := processLine nc s l
    let rest := runLines nc one.1 ls
    (rest.1, one.2 ++ rest.2)

/-- The state `processStdin` starts from: no header seen, no converter, both
indices `-1`, the reporter handed in by `main`. -/
def initState (rep : Option Reporter) : OrchState :=
  { headerProcessed := false, conv := none, packetIdx := -1, octetIdx := -1,
    rep := rep, lineCount := 0 }

/-- The total-packets telemetry counter visible in an orchestrator state
(`0` when the reporter is nil and no counter exists). -/
def repPkts (s : OrchState) : Int := (s.rep.map Reporter.totalPkts).getD 0

/-- The total-bytes telemetry counter visible in an orchestrator state. -/
def repBytes (s : OrchState) : Int := (s.rep.map Reporter.totalBytes).getD 0

/-! ## Concrete fixtures used by counterexamples and witnesses -/

/-- An enabled status-report configuration with a whitespace-only tag. -/
def cfgOn : StatusReportConfig :=
  ⟨true, "http://collector.example/status", 5, "  ", "/var/log/yf/status.json", 1⟩

/-- The same configuration with reporting disabled. -/
def cfgOff : StatusReportConfig := { cfgOn with Enabled := false, UUID := "tag-7" }

/-- A freshly constructed enabled reporter. -/
def rep0 : Reporter := ⟨cfgOn, 0, 0, 0, 0, 0, 0, "hostX"⟩

/-- A reporter that accumulated one packet since its last snapshot. -/
def rHalf : Reporter := { rep0 with totalPkts := 1, uuid := "u" }

/-- A converter-initialization behaviour that always fails, making the
orchestrator fall back to raw lines. -/
def ncNone : String → Option ConvState := fun _ => none

/-- A streaming-state orchestrator bound to columns `0` and `1`. -/
def sIdx : OrchState :=
  { headerProcessed := true, conv := none, packetIdx := 0, octetIdx := 1,
    rep := some rep0, lineCount := 0 }

/-- The orchestrator state before any header has been seen. -/
def sAwait : OrchState := initState (some rep0)

/-- A streaming-state orchestrator bound to columns `2` and `3`. -/
def sStream : OrchState :=
  { headerProcessed := true, conv := none, packetIdx := 2, octetIdx := 3,
    rep := some rep0, lineCount := 0 }

/-- A status file at exactly the 1 MB cap whose backup `.001` already exists. -/
def fsW : StatusFile := ⟨some 1048576, fun k => decide (k = 1)⟩

/-- An absent status file with no backups. -/
def fsEmpty : StatusFile := ⟨none, fun _ => false⟩

/-- Backup occupancy where exactly suffixes `.001` and `.002` exist. -/
def bexW : Nat → Bool := fun k => decide (1 ≤ k ∧ k ≤ 2)

/-! ## Helper lemmas about the backup-suffix search -/

/-- If `j` is the least free suffix at or after `i` (and within the loop's
bound), the search returns `j` given enough fuel. -/
theorem rotateLoop_ok (bex : Nat → Bool) (j : Nat) :
    ∀ fuel i, i ≤ j → j + 1 ≤ i + fuel → j ≤ 100001 → bex j = false →
      (∀ k, i ≤ k → k < j → bex k = true) → rotateLoop bex i fuel = .ok j := by
  intro fuel
  induction fuel with
  | zero => intro i hij hfuel _ _ _; omega
  | succ n ih =>
    intro i hij hfuel hj100 hbexj hmin
    rcases eq_or_lt_of_le hij with heq | hlt
    · subst heq; simp [rotateLoop, hbexj]
    · have hbi : bex i = true := hmin i le_rfl hlt
      have hno : ¬ (100000 < i) := by omega
      simp only [rotateLoop, hbi, Bool.true_eq_false, if_false, if_neg hno]
      exact ih (i + 1) (by omega) (by omega) hj100 hbexj
        (fun k hk1 hk2 => hmin k (by omega) hk2)

/-- If every suffix from `i` through `100001` is occupied, the search gives
up with an error given enough fuel. -/
theorem rotateLoop_err (bex : Nat → Bool) :
    ∀ fuel i, 1 ≤ i → i ≤ 100001 →
      (∀ k, i ≤ k → k ≤ 100001 → bex k = true) → 100002 - i ≤ fuel →
      rotateLoop bex i fuel = .error () := by
  intro fuel
  induction fuel with
  | zero => intro i h1 h2 _ hf; omega
  | succ n ih =>
    intro i h1 h2 hall hf
    have hbi : bex i = true := hall i le_rfl h2
    by_cases hc : 100000 < i
    · simp [rotateLoop, hbi, hc]
    · simp only [rotateLoop, hbi, Bool.true_eq_false, if_false, if_neg hc]
      exact ih (i + 1) (by omega) (by omega)
        (fun k hk1 hk2 => hall k (by omega) hk2) (by omega)

/-- When the file is at or above a positive cap but the suffix search fails,
the whole append fails and nothing is written. -/
theorem appendToFile_err_general (path : String) (maxMB : Int) (f : StatusFile)
    (tsLen dataLen : Nat) (sz : Nat) (hpath : path ≠ "") (hmain : f.main = some sz)
    (hpos : 0 < maxMB * 1024 * 1024) (hge : maxMB * 1024 * 1024 ≤ (sz : Int))
    (hloop : rotateLoop f.backups 1 100001 = .error ()) :
    appendToFile path maxMB f tsLen dataLen = .error () := by
  have hn0 : ¬ (maxMB * 1024 * 1024 ≤ 0) := by omega
  have hnlt : ¬ ((sz : Int) < maxMB * 1024 * 1024) := by omega
  simp [appendToFile, rotateIfNeeded, hpath, hmain, hn0, hnlt, hloop]

/-! ## Claim C9 -/

/-- C9: the backup-suffix search of the reporter's local-file rotation
terminates on every input: beyond the loop's own bound the fuel is
irrelevant, and the search either returns the first non-existing suffix —
never an existing one — or gives up with an error once the counter has
exceeded 100000 with every suffix up to `.100001` occupied. -/
theorem c9_rotate_search (bex : Nat → Bool) (fuel : Nat) (hf : 100001 ≤ fuel) :
    rotateLoop bex 1 fuel = rotateLoop bex 1 100001 ∧
    ((∃ j, 1 ≤ j ∧ j ≤ 100001 ∧ bex j = false ∧
        (∀ k, k < j → 1 ≤ k → bex k = true) ∧
        rotateLoop bex 1 100001 = .ok j) ∨
      ((∀ k, 1 ≤ k → k ≤ 100001 → bex k = true) ∧
        rotateLoop bex 1 100001 = .error ())) := by
  by_cases hx : ∃ n, 1 ≤ n ∧ n ≤ 100001 ∧ bex n = false
  · obtain ⟨hj1, hj2, hjf⟩ := Nat.find_spec hx
    have hmin : ∀ k, k < Nat.find hx → 1 ≤ k → bex k = true := by
      intro k hk h1k
      have hnot := Nat.find_min hx hk
      have hk2 : k ≤ 100001 := by omega
      cases hbk : bex k with
      | false => exact absurd ⟨h1k, hk2, hbk⟩ hnot
      | true => rfl
    have e1 : rotateLoop bex 1 100001 = .ok (Nat.find hx) :=
      rotateLoop_ok bex (Nat.find hx) 100001 1 hj1 (by omega) hj2 hjf
        (fun k hik hkj => hmin k hkj hik)
    have e2 : rotateLoop bex 1 fuel = .ok (Nat.find hx) :=
      rotateLoop_ok bex (Nat.find hx) fuel 1 hj1 (by omega) hj2 hjf
        (fun k hik hkj => hmin k hkj hik)
    exact ⟨e2.trans e1.symm, .inl ⟨Nat.find hx, hj1, hj2, hjf, hmin, e1⟩⟩
  · push_neg at hx
    have hall : ∀ k, 1 ≤ k → k ≤ 100001 → bex k = true := by
      intro k h1 h2
      cases hbk : bex k with
      | false => exact absurd hbk (hx k h1 h2)
      | true => rfl
    have e1 : rotateLoop bex 1 100001 = .error () :=
      rotateLoop_err bex 100001 1 le_rfl (by omega) hall (by omega)
    have e2 : rotateLoop bex 1 fuel = .error () :=
      rotateLoop_err bex fuel 1 le_rfl (by omega) hall (by omega)
    exact ⟨e2.trans e1.symm, .inr ⟨hall, e1⟩⟩

/-- C9 witness: with `.001` and `.002` occupied, the search with surplus fuel
performs its rename at `.003`. -/
theorem c9_rotate_search_witness : rotateLoop bexW 1 100002 = .ok 3 :=
  ((c9_rotate_search bexW 100002 (by norm_num)).1).trans (by rfl)

/-! ## Claim C3 -/

/-- C3 counterexample to the claim as stated: with the file at its 1 MB cap
but every numeric backup suffix occupied, the append neither renames nor
appends — it fails with an error — although the size is at the maximum. -/
theorem c3_rotation_counterexample :
    (1 * 1024 * 1024 : Int) ≤ ((1048576 : Nat) : Int) ∧
    appendToFile "/var/log/yf/status.json" 1 ⟨some 1048576, fun _ => true⟩ 20 10 =
      .error () := by
  refine ⟨by norm_num, ?_⟩
  exact appendToFile_err_general _ 1 _ 20 10 1048576 (by decide) rfl
    (by norm_num) (by norm_num)
    (rotateLoop_err (fun _ => true) 100001 1 le_rfl (by omega)
      (fun _ _ _ => rfl) (by omega))

/-- C3 as amended: provided some suffix among `.001`–`.100001` is unused,
an append that finds the file at or above the byte cap first renames it to
the lowest-numbered unused suffix `j` — overwriting no existing backup and
deleting none — and then appends the timestamped line to a fresh file; when
the size is below the cap, the cap is not positive, or the file is absent,
no rename happens and the line is simply appended. -/
theorem c3_rotation (path : String) (maxMB : Int) (f : StatusFile)
    (tsLen dataLen : Nat) (j : Nat) (hpath : path ≠ "")
    (hfree : f.backups j = false) (h1 : 1 ≤ j) (hle : j ≤ 100001)
    (hmin : ∀ k, k < j → 1 ≤ k → f.backups k = true) :
    (∀ sz : Nat, f.main = some sz → 0 < maxMB * 1024 * 1024 →
      maxMB * 1024 * 1024 ≤ (sz : Int) →
      appendToFile path maxMB f tsLen dataLen =
        .ok { main := some (tsLen + 1 + dataLen + 1),
              backups := fun k => if k = j then true else f.backups k }) ∧
    (∀ sz : Nat, f.main = some sz → (sz : Int) < maxMB * 1024 * 1024 →
      appendToFile path maxMB f tsLen dataLen =
        .ok { main := some (sz + (tsLen + 1 + dataLen + 1)),
              backups := f.backups }) ∧
    (maxMB * 1024 * 1024 ≤ 0 →
      appendToFile path maxMB f tsLen dataLen =
        .ok { main := some (f.main.getD 0 + (tsLen + 1 + dataLen + 1)),
              backups := f.backups }) ∧
    (f.main = none → 0 < maxMB * 1024 * 1024 →
      appendToFile path maxMB f tsLen dataLen =
        .ok { main := some (tsLen + 1 + dataLen + 1),
              backups := f.backups }) := by
  have hloop : rotateLoop f.backups 1 100001 = .ok j :=
    rotateLoop_ok f.backups j 100001 1 h1 (by omega) hle hfree
      (fun k hik hkj => hmin k hkj hik)
  refine ⟨?_, ?_, ?_, ?_⟩
  · intro sz hmain hpos hge
    have hn0 : ¬ (maxMB * 1024 * 1024 ≤ 0) := by omega
    have hnlt : ¬ ((sz : Int) < maxMB * 1024 * 1024) := by omega
    simp [appendToFile, rotateIfNeeded, hpath, hmain, hn0, hnlt, hloop]
  · intro sz hmain hlt
    have hn0 : ¬ (maxMB * 1024 * 1024 ≤ 0) := by omega
    simp [appendToFile, rotateIfNeeded, hpath, hmain, hn0, hlt]
  · intro h0
    cases hmain : f.main with
    | none => simp [appendToFile, rotateIfNeeded, hpath, hmain, h0]
    | some sz => simp [appendToFile, rotateIfNeeded, hpath, hmain, h0]
  · intro hmain hpos
    have hn0 : ¬ (maxMB * 1024 * 1024 ≤ 0) := by omega
    simp [appendToFile, rotateIfNeeded, hpath, hmain, hn0]

/-- C3 witness: at the 1 MB cap with only `.001` occupied, the append rotates
to `.002` and starts a fresh file holding just the new 32-byte line. -/
theorem c3_rotation_witness :
    appendToFile "/var/log/yf/status.json" 1 fsW 20 10 =
      .ok { main := some 32,
            backups := fun k => if k = 2 then true else fsW.backups k } :=
  (c3_rotation "/var/log/yf/status.json" 1 fsW 20 10 2 (by decide) (by decide)
    (by decide) (by decide) (by decide)).1 1048576 rfl (by norm_num) (by norm_num)

/-! ## Claim C8 -/

/-- C8 counterexample to the claim as stated, at two concrete inputs: a
negative index is not a valid position in the pipe-split fields, yet
`parseCounts "a|b" (-1) 0` does not return `(0, 0)` — the negative index
passes the upper-bound-only guard and `fields[-1]` panics (modelled as
`none`); and a field that does not parse as a base-10 int64 because its
digit prefix overflows contributes the saturated boundary `MaxInt64`, not
`0` — `ParseInt` returns the boundary with `ErrRange` the moment the prefix
overflows, before ever scanning the trailing `x`. -/
theorem c8_parse_counterexample :
    (parseCounts "a|b" (-1) 0 = none ∧ parseCounts "a|b" (-1) 0 ≠ some (0, 0)) ∧
    parseCounts "99999999999999999999x|1" 0 1 =
      some (9223372036854775807, 1) := by
  decide

/-- C8 as amended: for every line and every pair of non-negative indices,
`parseCounts` is total and never indexes out of bounds — an index at or
beyond the number of pipe-split fields yields `(0, 0)`, and otherwise each
selected field contributes its trimmed `strconv.ParseInt` value with the
error ignored: `0` when the scan hits a syntax error before overflowing,
and the saturated int64 boundary once the digit prefix overflows (returned
immediately with `ErrRange`, even if garbage follows) or the scanned value
lies outside the int64 range. -/
theorem c8_parse_total (line : String) (p o : Int) (hp : 0 ≤ p) (ho : 0 ≤ o) :
    (parseCounts line p o).isSome = true ∧
    (((goSplit line '|').length : Int) ≤ p ∨ ((goSplit line '|').length : Int) ≤ o →
      parseCounts line p o = some (0, 0)) ∧
    (p < ((goSplit line '|').length : Int) → o < ((goSplit line '|').length : Int) →
      parseCounts line p o =
        some (goParseInt64 (goTrimSpace ((goSplit line '|').getD p.toNat "")),
              goParseInt64 (goTrimSpace ((goSplit line '|').getD o.toNat "")))) := by
  by_cases hbig : ((goSplit line '|').length : Int) ≤ p ∨ ((goSplit line '|').length : Int) ≤ o
  · refine ⟨?_, fun _ => ?_, ?_⟩
    · simp [parseCounts, hbig]
    · simp [parseCounts, hbig]
    · intro h1 h2; omega
  · have hneg : ¬ (p < 0 ∨ o < 0) := by omega
    refine ⟨?_, fun h => absurd h hbig, fun _ _ => ?_⟩
    · simp [parseCounts, hbig, hneg]
    · simp [parseCounts, hbig, hneg]

/-- C8 witness: in-bounds indices with a syntactically invalid packet field
and a padded numeric byte field contribute `0` and `42`. -/
theorem c8_parse_total_witness : parseCounts "7x| 42 " 0 1 = some (0, 42) :=
  (c8_parse_total "7x| 42 " 0 1 (by norm_num) (by norm_num)).2.2
    (by decide) (by decide)

/-! ## Claim C2 -/

/-- C2 counterexample to the claim as stated: half a second into the window
(and into the run) the elapsed seconds are positive but below 1, yet the
divisor the tick uses is `1/2`, not the claimed floor of `1` — the windowed
rate over one delta packet comes out as `2`, not `1`. -/
theorem c2_divisor_counterexample :
    (0 : ℚ) < 1 / 2 - rHalf.lastTimestamp ∧
    (1 / 2 : ℚ) - rHalf.lastTimestamp < 1 ∧
    elapsedWindowOf rHalf (1 / 2) ≠ 1 ∧
    (reportPayload rHalf (1 / 2)).curAvgRcvPps = 2 := by
  refine ⟨by norm_num [rHalf, rep0], by norm_num [rHalf, rep0], ?_, ?_⟩
  · norm_num [elapsedWindowOf, goFloorPos, rHalf, rep0]
  · norm_num [reportPayload, elapsedWindowOf, runSecsOf, goFloorPos, rHalf, rep0]

/-- C2 as amended: each divisor of a tick equals the actual elapsed seconds
whenever that is positive — including fractional values below 1 second — and
is replaced by 1 exactly when the elapsed value is zero or negative; the
windowed and cumulative rates divide by precisely these divisors. -/
theorem c2_divisors (r : Reporter) (now : ℚ) :
    (0 < now - r.lastTimestamp → elapsedWindowOf r now = now - r.lastTimestamp) ∧
    (now - r.lastTimestamp ≤ 0 → elapsedWindowOf r now = 1) ∧
    (0 < now - r.startTime → runSecsOf r now = now - r.startTime) ∧
    (now - r.startTime ≤ 0 → runSecsOf r now = 1) ∧
    (reportPayload r now).curAvgRcvPps =
      ((r.totalPkts - r.lastPkts : Int) : ℚ) / elapsedWindowOf r now ∧
    (reportPayload r now).totalAvgRcvPps =
      ((r.totalPkts : Int) : ℚ) / runSecsOf r now := by
  refine ⟨?_, ?_, ?_, ?_, rfl, rfl⟩
  · intro h
    have hn : ¬ (now - r.lastTimestamp ≤ 0) := by linarith
    simp [elapsedWindowOf, goFloorPos, hn]
  · intro h
    simp [elapsedWindowOf, goFloorPos, h]
  · intro h
    have hn : ¬ (now - r.startTime ≤ 0) := by linarith
    simp [runSecsOf, goFloorPos, hn]
  · intro h
    simp [runSecsOf, goFloorPos, h]

/-- C2 witness: ten seconds into the window the divisor is the actual ten
seconds. -/
theorem c2_divisors_witness : elapsedWindowOf rHalf 10 = 10 - rHalf.lastTimestamp :=
  (c2_divisors rHalf 10).1 (by norm_num [rHalf, rep0])

/-! ## Claim C7 -/

/-- C7: with reporting disabled, `NewReporter` returns a nil reporter and a
nil error, `Add` on that nil reporter is a no-op with no counter to change,
and `Run` on it returns immediately — no tick ever runs and the status file
is untouched. -/
theorem c7_disabled_noop (cfg : StatusReportConfig) (host : String) (now : ℚ)
    (pkts bytes : Int) (ticks : List (ℚ × TickFx × Nat)) (fs : StatusFile)
    (h : cfg.Enabled = false) :
    NewReporter cfg host now = (none, none) ∧
    AddOpt (NewReporter cfg host now).1 pkts bytes = none ∧
    RunOpt (NewReporter cfg host now).1 ticks fs = (none, fs, []) := by
  simp [NewReporter, h, AddOpt, RunOpt]

/-- C7 witness at the disabled fixture configuration. -/
theorem c7_disabled_noop_witness :
    NewReporter cfgOff "hostX" 0 = (none, none) ∧
    AddOpt (NewReporter cfgOff "hostX" 0).1 3 4 = none ∧
    RunOpt (NewReporter cfgOff "hostX" 0).1 [] fsEmpty = (none, fsEmpty, []) :=
  c7_disabled_noop cfgOff "hostX" 0 3 4 [] fsEmpty rfl

/-! ## Claim C10 -/

/-- C10: when the reporter is enabled and the configured tag trims to the
empty string, the reporter's tag becomes the process hostname, and that tag
is carried as the `"uuid"` field of every serialized snapshot — the payload
always serializes the reporter's tag, and neither a tick's snapshot update
nor `Add` ever changes it. -/
theorem c10_uuid_fallback (cfg : StatusReportConfig) (host : String) (t : ℚ)
    (hE : cfg.Enabled = true) (hU : goTrimSpace cfg.UUID = "") :
    (NewReporter cfg host t).1.map Reporter.uuid = some host ∧
    (NewReporter cfg host t).2 = none ∧
    (∀ (r : Reporter) (now : ℚ),
      List.lookup "uuid" (payloadJson (reportPayload r now)) =
        some (JVal.jstr r.uuid)) ∧
    (∀ (r : Reporter) (now : ℚ), (tickUpdate r now).uuid = r.uuid) ∧
    (∀ (r : Reporter) (p b : Int),
      (AddOpt (some r) p b).map Reporter.uuid = some r.uuid) := by
  refine ⟨?_, ?_, fun r now => rfl, fun r now => rfl, fun r p b => rfl⟩
  · simp [NewReporter, hE, hU]
  · simp [NewReporter, hE]

/-- C10 witness: the fixture configuration's whitespace-only tag falls back
to the hostname. -/
theorem c10_uuid_fallback_witness :
    (NewReporter cfgOn "hostX" 0).1.map Reporter.uuid = some "hostX" :=
  (c10_uuid_fallback cfgOn "hostX" 0 rfl (by decide)).1

/-! ## Claim C6 -/

/-- C6: a tick never propagates an error — in every failure combination
`reportOnce` performs the snapshot update and returns normally — and the
HTTP POST is attempted exactly when marshalling and request creation
succeed, independently of whether the local file append failed: flipping the
append I/O failure flag never changes whether the POST is attempted. -/
theorem c6_tick_isolated (r : Reporter) (now : ℚ) (fx : TickFx)
    (fs : StatusFile) (tsLen : Nat) :
    (reportOnce r now fx fs tsLen).1 = tickUpdate r now ∧
    (reportOnce r now fx fs tsLen).2.2.postAttempted =
      (fx.marshalOk && !fx.newReqErr) ∧
    (reportOnce r now fx fs tsLen).2.2.appendAttempted =
      (fx.marshalOk && !(r.cfg.FilePath = "")) ∧
    (reportOnce r now
        { marshalOk := fx.marshalOk, ioErr := true,
          newReqErr := fx.newReqErr, doErr := fx.doErr } fs tsLen).2.2.postAttempted =
      (reportOnce r now
        { marshalOk := fx.marshalOk, ioErr := false,
          newReqErr := fx.newReqErr, doErr := fx.doErr } fs tsLen).2.2.postAttempted := by
  obtain ⟨m, io, nr, de⟩ := fx
  cases m <;> cases nr <;>
    by_cases hp : r.cfg.FilePath = "" <;>
      simp [reportOnce, hp]

/-! ## Claim C1 -/

/-- C1 counterexample to the claim as stated: a data line whose packet field
parses positive and whose byte field parses negative passes the
`pkts > 0 || bytes > 0` guard, so `Add(3, -5)` runs and the total-bytes
counter decreases from 0 to -5. -/
theorem c1_counters_counterexample :
    repBytes sIdx = 0 ∧
    repBytes (processLine ncNone sIdx "3|-5").1 = -5 ∧
    repBytes (processLine ncNone sIdx "3|-5").1 < repBytes sIdx := by
  decide

/-- C1 as amended: processing a line leaves both telemetry counters
non-decreasing whenever the packet-count and byte-count values parsed from
the line it writes are non-negative and adding them to the respective int64
counter does not overflow; a negative parsed field alongside a positive one,
or an addition that wraps the int64 counter, can decrement a counter. -/
theorem c1_counters_monotone (nc : String → Option ConvState) (s : OrchState)
    (line : String) (hp : 0 ≤ (parsedOf s line).1) (hb : 0 ≤ (parsedOf s line).2)
    (hpU : repPkts s + (parsedOf s line).1 ≤ 9223372036854775807)
    (hbU : repBytes s + (parsedOf s line).2 ≤ 9223372036854775807) :
    repPkts s ≤ repPkts (processLine nc s line).1 ∧
    repBytes s ≤ repBytes (processLine nc s line).1 := by
  by_cases h0 : line = ""
  · simp [processLine, h0]
  · by_cases hh : s.headerProcessed = true
    · by_cases hg : (s.rep.isSome && decide (0 ≤ s.packetIdx) &&
        decide (0 ≤ s.octetIdx)) = true
      · rw [Bool.and_eq_true, Bool.and_eq_true] at hg
        obtain ⟨⟨hg1, hg2⟩, hg3⟩ := hg
        rw [decide_eq_true_eq] at hg2 hg3
        cases hpc : parseCounts (outLineOf s line) s.packetIdx s.octetIdx with
        | none =>
          simp [processLine, h0, hh, hg1, hg2, hg3, hpc, repPkts, repBytes]
        | some pb =>
          have hpb : parsedOf s line = pb := by simp [parsedOf, hpc]
          rw [hpb] at hp hb hpU hbU
          by_cases hpos : 0 < pb.1 ∨ 0 < pb.2
          · cases hr : s.rep with
            | none => rw [hr] at hg1; simp at hg1
            | some r =>
              have hrp : repPkts s = r.totalPkts := by simp [repPkts, hr]
              have hrb : repBytes s = r.totalBytes := by simp [repBytes, hr]
              rw [hrp] at hpU
              rw [hrb] at hbU
              simp [processLine, h0, hh, hg1, hg2, hg3, hpc, hpos, AddOpt, hr,
                repPkts, repBytes, wrapInt64]
              constructor <;> omega
          · simp [processLine, h0, hh, hg1, hg2, hg3, hpc, hpos, repPkts,
              repBytes]
      · rw [Bool.not_eq_true] at hg
        simp [processLine, h0, hh, hg, repPkts, repBytes]
    · by_cases hm : goContains line "flowStartMilliseconds" = true <;>
        simp [processLine, h0, hh, hm, repPkts, repBytes]

/-- C1 witness: a line with small non-negative counts on an in-range counter
state can only grow the counters. -/
theorem c1_counters_monotone_witness :
    repPkts sIdx ≤ repPkts (processLine ncNone sIdx "10|1500").1 ∧
    repBytes sIdx ≤ repBytes (processLine ncNone sIdx "10|1500").1 :=
  c1_counters_monotone ncNone sIdx "10|1500" (by decide) (by decide)
    (by decide) (by decide)

/-! ## Claim C4 -/

/-- C4 counterexample to the claim as stated: an empty line arriving before
any header is skipped outright — it is not written through to the writer —
so not every pre-header line is written. -/
theorem c4_preheader_counterexample :
    sAwait.headerProcessed = false ∧
    (processLine ncNone sAwait "").2 = [] ∧
    (processLine ncNone sAwait "").2 ≠ [""] := by
  decide

/-- C4 as amended: before a header has been seen, no line updates the
telemetry counters or touches the reporter at all; every non-empty
pre-header line (including the header line itself) is written through to
the writer unchanged, and an empty line is skipped without being written. -/
theorem c4_preheader (nc : String → Option ConvState) (s : OrchState)
    (line : String) (h : s.headerProcessed = false) :
    (processLine nc s line).1.rep = s.rep ∧
    repPkts (processLine nc s line).1 = repPkts s ∧
    repBytes (processLine nc s line).1 = repBytes s ∧
    (line ≠ "" → (processLine nc s line).2 = [line]) ∧
    (line = "" → (processLine nc s line).2 = []) := by
  by_cases h0 : line = ""
  · simp [processLine, h0]
  · by_cases hm : goContains line "flowStartMilliseconds" = true
    · simp [processLine, h0, h, hm, repPkts, repBytes]
    · simp [processLine, h0, h, hm, repPkts, repBytes]

/-- C4 witness: a non-empty pre-header line passes through unchanged. -/
theorem c4_preheader_witness :
    (processLine ncNone sAwait "junk line").2 = ["junk line"] :=
  (c4_preheader ncNone sAwait "junk line" rfl).2.2.2.1 (by decide)

/-! ## Claim C5 -/

/-- C5: once the header latch is set, running the loop over any further
lines never changes the converter reference or the packet/byte column
indices — even when a later line also contains the marker column name —
and the latch stays set. -/
theorem c5_binding_immutable (nc : String → Option ConvState) (s : OrchState)
    (lines : List String) (h : s.headerProcessed = true) :
    (runLines nc s lines).1.conv = s.conv ∧
    (runLines nc s lines).1.packetIdx = s.packetIdx ∧
    (runLines nc s lines).1.octetIdx = s.octetIdx ∧
    (runLines nc s lines).1.headerProcessed = true := by
  induction lines generalizing s with
  | nil => simp [runLines, h]
  | cons l ls ih =>
    have hstep : (processLine nc s l).1.conv = s.conv ∧
        (processLine nc s l).1.packetIdx = s.packetIdx ∧
        (processLine nc s l).1.octetIdx = s.octetIdx ∧
        (processLine nc s l).1.headerProcessed = true := by
      by_cases h0 : l = ""
      · simp [processLine, h0, h]
      · by_cases hg : (s.rep.isSome && decide (0 ≤ s.packetIdx) &&
          decide (0 ≤ s.octetIdx)) = true
        · cases hpc : parseCounts (outLineOf s l) s.packetIdx s.octetIdx with
          | none => simp [processLine, h0, h, hg, hpc]
          | some pb =>
            by_cases hpos : 0 < pb.1 ∨ 0 < pb.2
            · simp [processLine, h0, h, hg, hpc, hpos]
            · simp [processLine, h0, h, hg, hpc, hpos]
        · simp [processLine, h0, h, hg]
    obtain ⟨h1, h2, h3, h4⟩ := hstep
    have hrest := ih (processLine nc s l).1 h4
    simp only [runLines]
    exact ⟨hrest.1.trans h1, hrest.2.1.trans h2, hrest.2.2.1.trans h3,
      hrest.2.2.2⟩

/-- C5 witness: a later header-looking line leaves the established binding
at columns 2 and 3 untouched. -/
theorem c5_binding_immutable_witness :
    (runLines ncNone sStream
      ["b|flowStartMilliseconds|packetTotalCount|octetTotalCount",
       "1|2|3|4"]).1.packetIdx = 2 :=
  (c5_binding_immutable ncNone sStream
    ["b|flowStartMilliseconds|packetTotalCount|octetTotalCount",
     "1|2|3|4"] rfl).2.1

end Yf
